import Mathlib

/-!
Shallow embedding of NetScout-Go/Plugin_traceroute (src/plugin.go).

The plugin parses the textual output of the `traceroute` utility into hop
records and optionally accumulates repeated runs into an in-memory history.
External effects are made explicit parameters:
  * the probe collaborator (the `traceroute` process, plugin.go:144-150) is a
    function from (host, maxHops) to a `ProbeResult`;
  * reverse DNS (`net.LookupAddr`, plugin.go:185) is a `Resolver` function;
  * wall-clock timestamps (`time.Now`, `time.Since`) are string parameters.
Go's `map[string]interface{}` parameter bag is a list of key/`ParamVal`
pairs; JSON numbers (Go `float64`) are modelled as rationals.
-/

namespace Traceroute

/-- A JSON-decoded parameter value as stored in Go's `map[string]interface{}`.
`other` stands for any value that is not a string, number or boolean (type
assertions on it fail, as in Go). -/
inductive ParamVal where
  | str (s : String)
  | num (q : ℚ)
  | bool (b : Bool)
  | other
deriving DecidableEq, Repr

abbrev Params := List (String × ParamVal)

/-- Lookup in the parameter bag (Go map indexing; keys are unique in a
decoded JSON object, we take the first binding). -/
def paramGet (params : Params) (k : String) : Option ParamVal :=
  (params.find? fun e => e.1 == k).map (·.2)

/-- Go `params[k].(string)` with discarded ok-flag: missing key or
non-string value yields the zero value `""` (plugin.go:132). -/
def getString (params : Params) (k : String) : String :=
  match paramGet params k with
  | some (.str s) => s
  | _ => ""

/-- Go `params[k].(float64)` comma-ok: `some q` when the stored value is a
number, `none` otherwise (plugin.go:133). -/
def getNumQ (params : Params) (k : String) : Option ℚ :=
  match paramGet params k with
  | some (.num q) => some q
  | _ => none

/-- Go's `int(f)` conversion on a float: truncation toward zero
(plugin.go:137). On a rational this is T-division of numerator by
denominator. -/
def goTrunc (q : ℚ) : ℤ := q.num.tdiv q.den

/-- The max-hop count used for the probe invocation, from plugin.go:133-137:
default 30 only when the `maxHops` entry is absent or not a number; a
numeric value is truncated and used as-is (no sign or range check). -/
def maxHopsOf (params : Params) : ℤ :=
  goTrunc ((getNumQ params "maxHops").getD 30)

/-! ### Go string helpers -/

/-- ASCII whitespace recognised by Go's `strings.Fields` via
`unicode.IsSpace` (traceroute output is ASCII; the non-ASCII Unicode space
code points never occur in it and are omitted). -/
def goIsSpace (c : Char) : Bool :=
  c = ' ' || c = '\t' || c = '\n' || c = '\x0b' || c = '\x0c' || c = '\r'

def fieldsAux : List Char → List Char → List String
  | [], acc => if acc.isEmpty then [] else [String.mk acc.reverse]
  | c :: cs, acc =>
    if goIsSpace c then
      if acc.isEmpty then fieldsAux cs []
      else String.mk acc.reverse :: fieldsAux cs []
    else fieldsAux cs (c :: acc)

/-- Go `strings.Fields`: split around maximal runs of whitespace
(plugin.go:167). -/
def fields (s : String) : List String := fieldsAux s.toList []

/-- Go `strings.TrimSuffix s suf`: remove `suf` once if `s` ends with it,
otherwise return `s` unchanged (plugin.go:187,193). -/
def trimSuffix (s suf : String) : String :=
  if s.endsWith suf then s.dropRight suf.length else s

def natOfDigits (ds : List Char) : Nat :=
  ds.foldl (fun a c => a * 10 + (c.toNat - 48)) 0

/-- A non-empty all-digit run, as required after the optional sign by
`strconv.Atoi`. -/
def digitsToNat (ds : List Char) : Option Nat :=
  if ds.isEmpty then none
  else if ds.all Char.isDigit then some (natOfDigits ds) else none

/-- Go `strconv.Atoi` (plugin.go:172): optional sign then one or more
decimal digits, whole string; negative and zero values are accepted.
Arbitrary precision is used (the int64 overflow bound is immaterial for
hop counters). -/
def goAtoi (s : String) : Option ℤ :=
  match s.toList with
  | [] => none
  | '+' :: ds => (digitsToNat ds).map Int.ofNat
  | '-' :: ds => (digitsToNat ds).map fun n => -(n : ℤ)
  | ds => (digitsToNat ds).map Int.ofNat

/-- Go `strconv.ParseFloat` (plugin.go:194) restricted to the plain decimal
forms that occur in traceroute output: optional sign, digits with optional
fraction (at least one mantissa digit), optional decimal exponent. The
value is kept as an exact rational; the `Inf`/`NaN`/hex-float spellings
never appear in probe output and are omitted. -/
def goParseFloat (s : String) : Option ℚ :=
  let cs := s.toList
  let signSplit : Bool × List Char :=
    match cs with
    | '+' :: r => (false, r)
    | '-' :: r => (true, r)
    | r => (false, r)
  let neg := signSplit.1
  let cs1 := signSplit.2
  let ipart := cs1.takeWhile Char.isDigit
  let rest1 := cs1.dropWhile Char.isDigit
  let fracSplit : List Char × List Char :=
    match rest1 with
    | '.' :: r => (r.takeWhile Char.isDigit, r.dropWhile Char.isDigit)
    | r => ([], r)
  let fpart := fracSplit.1
  let rest2 := fracSplit.2
  if ipart.isEmpty ∧ fpart.isEmpty then none
  else
    let mant : ℚ :=
      (natOfDigits ipart : ℚ) + (natOfDigits fpart : ℚ) / (10 : ℚ) ^ fpart.length
    let signed : ℚ := if neg then -mant else mant
    match rest2 with
    | 'e' :: r | 'E' :: r =>
      let expSplit : Bool × List Char :=
        match r with
        | '+' :: t => (false, t)
        | '-' :: t => (true, t)
        | t => (false, t)
      let eds := expSplit.2.takeWhile Char.isDigit
      let r2 := expSplit.2.dropWhile Char.isDigit
      if eds.isEmpty ∨ ¬ r2.isEmpty then none
      else
        let e : ℤ :=
          if expSplit.1 then -(natOfDigits eds : ℤ) else (natOfDigits eds : ℤ)
        some (signed * (10 : ℚ) ^ e)
    | [] => some signed
    | _ => none

/-! ### Hop parser -/

/-- One parsed hop record: the map built at plugin.go:201-212 with keys
`hop`, `host`, `name`, `rtt`, `status`. -/
structure Hop where
  hop : ℤ
  host : String
  name : String
  rtt : ℚ
  status : String
deriving DecidableEq, Repr

/-- Reverse DNS collaborator (`net.LookupAddr`): `none` models a lookup
error, `some l` a successful call returning the name list `l`. -/
abbrev Resolver := String → Option (List String)

/-- The per-line body of the parse loop, plugin.go:167-214 (the caller has
already dropped the header line and empty lines). Returns `none` when the
line is skipped. -/
def parseHopLine (resolve : Resolver) (line : String) : Option Hop :=
  let parts := fields line
  if parts.length < 2 then none
  else
    match goAtoi (parts.getD 0 "") with
    | none => none
    | some hopNumber =>
      let triple : String × String × ℚ :=
        if 4 ≤ parts.length ∧ parts.getD 1 "" ≠ "*" then
          let hopIP := parts.getD 1 ""
          let hopName :=
            match resolve hopIP with
            | some (a :: _) => trimSuffix a "."
            | _ => hopIP
          (hopIP, hopName, (goParseFloat (trimSuffix (parts.getD 2 "") "ms")).getD 0)
        else ("*", "*", 0)
      some { hop := hopNumber
             host := triple.1
             name := triple.2.1
             rtt := triple.2.2
             status := if triple.1 ≠ "*" then "OK" else "NO RESPONSE" }

def splitLinesAux : List Char → List Char → List String
  | [], acc => [String.mk acc.reverse]
  | c :: cs, acc =>
    if c = '\n' then String.mk acc.reverse :: splitLinesAux cs []
    else splitLinesAux cs (c :: acc)

/-- Go `strings.Split(output, "\n")` (plugin.go:158): cut at every
newline, keeping empty pieces (`""` yields `[""]`). -/
def splitLines (s : String) : List String := splitLinesAux s.toList []

/-- The full parse of the probe's stdout, plugin.go:158-215: split on
newlines, skip the header line (index 0) and empty lines, parse the rest
in order. -/
def parseOutput (resolve : Resolver) (output : String) : List Hop :=
  ((splitLines output).enum).filterMap fun p =>
    if p.1 = 0 ∨ p.2 = "" then none else parseHopLine resolve p.2

/-! ### Single run (`performTraceroute`, plugin.go:131-223) -/

/-- The canonical per-run result map built at plugin.go:217-222. -/
structure RunResult where
  host : String
  hops : List Hop
  timestamp : String
  rawOutput : String
deriving DecidableEq, Repr

/-- Outcome of running the external `traceroute` process: `failed` is
`err != nil` from `cmd.Run()`, `errText` the text of that error, and the
two captured output streams (plugin.go:144-153). -/
structure ProbeResult where
  failed : Bool
  errText : String
  stdout : String
  stderr : String
deriving DecidableEq, Repr

/-- The probe collaborator: host and max-hop count in, process outcome
out. -/
abbrev Probe := String → ℤ → ProbeResult

/-- Continuation of `performTraceroute` after the probe has run,
plugin.go:150-222: fail only when the process errored AND stderr is
non-empty; otherwise parse stdout (even after a silent process error). -/
def probeResultCont (resolve : Resolver) (timestamp host : String)
    (pr : ProbeResult) : Except String RunResult × Nat :=
  if pr.failed = true ∧ pr.stderr ≠ "" then
    (.error ("traceroute failed: " ++ pr.errText ++ ": " ++ pr.stderr), 1)
  else
    (.ok { host := host
           hops := parseOutput resolve pr.stdout
           timestamp := timestamp
           rawOutput := pr.stdout }, 1)

/-- plugin.go:131-223. The second component counts probe invocations (0 or
1), making "the probe was never run" an explicit observation. -/
def performTraceroute (resolve : Resolver) (timestamp : String) (probe : Probe)
    (params : Params) : Except String RunResult × Nat :=
  let host := getString params "host"
  if host = "" then (.error "host parameter is required", 0)
  else probeResultCont resolve timestamp host (probe host (maxHopsOf params))

/-! ### Iteration mode (`executeWithIteration`, plugin.go:43-128) -/

/-- The `iteration_data` map attached at plugin.go:78-88. -/
structure IterationData where
  can_iterate : Bool
  supports_iteration : Bool
  iteration_summary : String
deriving DecidableEq, Repr

/-- One condensed history entry, plugin.go:113-119. -/
structure HistEntry where
  iteration : Nat
  timestamp : String
  host : String
  hopCount : Nat
  lastHop : String
deriving DecidableEq, Repr

/-- The annotated result returned in iteration mode: the canonical run
result plus the auxiliary keys added at plugin.go:61-124 (`history` is
present only once at least two runs are stored). -/
structure AnnotatedResult where
  run : RunResult
  iterationCount : Nat
  elapsedTime : String
  iteration_data : IterationData
  history : Option (List HistEntry)
deriving DecidableEq, Repr

/-- The accumulator's mutable state (`TraceroutePlugin.Results` and
`.IterationCount`, plugin.go:16-20). -/
structure PState where
  results : List RunResult
  iterationCount : Nat
deriving DecidableEq, Repr

/-- Final-hop display value, plugin.go:68-75/101-110: the source first
tries key `"ip"`, which hop records never contain (the parser stores the
address under `"host"`, plugin.go:203), then falls back to `"host"`; with
no hops the Go zero value `""` remains. -/
def lastHopOf (hops : List Hop) : String :=
  match hops.getLast? with
  | some h => h.host
  | none => ""

/-- The `iteration_summary` string, plugin.go:81-87. -/
def iterationSummary (count : Nat) (host : String) (hopCount : Nat)
    (lastHopIP : String) : String :=
  "Iteration " ++ toString count ++ ": " ++ host ++ " - " ++
    toString hopCount ++ " hops, final: " ++ lastHopIP

/-- plugin.go:43-128. On probe failure the error propagates and the state
is untouched; on success the counter is bumped, a copy of the result is
appended to history, and the returned value is annotated. The value-level
content of the stored copy is the canonical `RunResult` (the aliasing
behaviour of the Go map copy is studied separately on the heap model
below). `elapsed` stands for `time.Since(p.StartTime).String()`. -/
def executeWithIteration (resolve : Resolver) (timestamp elapsed : String)
    (probe : Probe) (params : Params) (st : PState) :
    (Except String AnnotatedResult × Nat) × PState :=
  match performTraceroute resolve timestamp probe params with
  | (.error e, n) => ((.error e, n), st)
  | (.ok result, n) =>
    let count := st.iterationCount + 1
    let results := st.results ++ [result]
    let hopCount := result.hops.length
    let lastHopIP := lastHopOf result.hops
    let history : Option (List HistEntry) :=
      if 1 < results.length then
        some (results.enum.map fun p =>
          { iteration := p.1 + 1
            timestamp := p.2.timestamp
            host := p.2.host
            hopCount := p.2.hops.length
            lastHop := lastHopOf p.2.hops })
      else none
    ((.ok { run := result
            iterationCount := count
            elapsedTime := elapsed
            iteration_data :=
              { can_iterate := true
                supports_iteration := true
                iteration_summary :=
                  iterationSummary count result.host hopCount lastHopIP }
            history := history }, n),
     { results := results, iterationCount := count })

/-- Inputs of one iterated call (per-call collaborators and clock
readings). -/
structure CallInput where
  timestamp : String
  elapsed : String
  probe : Probe
  params : Params

/-- State after a sequence of iterated calls. -/
def iterateCalls (resolve : Resolver) (st : PState) : List CallInput → PState
  | [] => st
  | c :: cs =>
    iterateCalls resolve
      (executeWithIteration resolve c.timestamp c.elapsed c.probe c.params st).2 cs

def exceptIsOk : Except String RunResult → Bool
  | .ok _ => true
  | .error _ => false

/-! ### Heap model of the Go maps

The value-level embedding above cannot express aliasing, so the history
copy of plugin.go:52-58 is additionally modelled on an explicit heap: Go
maps and slices are heap objects, map/slice values hold references, and
`historyCopy` copies the top-level bindings of the result map exactly as
the `for k, v := range resultMap` loop does. -/

/-- A Go value as stored in a map entry or slice cell: scalars by value,
maps and slices by reference. -/
inductive HVal where
  | str (s : String)
  | int (n : ℤ)
  | rat (q : ℚ)
  | bool (b : Bool)
  | ref (a : Nat)
deriving DecidableEq, Repr

/-- A heap object: a string-keyed map or a slice. -/
inductive HObj where
  | map (entries : List (String × HVal))
  | arr (elems : List HVal)
deriving DecidableEq, Repr

/-- The heap: object at address `a` is the list element at index `a`. -/
abbrev Heap := List HObj

/-- Allocate a fresh object, returning the new heap and its address. -/
def alloc (h : Heap) (o : HObj) : Heap × Nat := (h ++ [o], h.length)

/-- Go map assignment on an entry list: overwrite the binding when the key
is present, append it otherwise. -/
def setEntry (k : String) (v : HVal) : List (String × HVal) → List (String × HVal)
  | [] => [(k, v)]
  | e :: rest => if e.1 = k then (k, v) :: rest else e :: setEntry k v rest

/-- Go map assignment `m[k] = v` on the map object at address `a`. -/
def mapSet (h : Heap) (a : Nat) (k : String) (v : HVal) : Heap :=
  match h[a]? with
  | some (.map es) => h.set a (.map (setEntry k v es))
  | _ => h

/-- Read `m[k]` from the map object at address `a`. -/
def mapLookup (h : Heap) (a : Nat) (k : String) : Option HVal :=
  match h[a]? with
  | some (.map es) => (es.find? fun e => e.1 == k).map (·.2)
  | _ => none

/-- Read `s[i]` from the slice object at address `a`. -/
def arrGet (h : Heap) (a i : Nat) : Option HVal :=
  match h[a]? with
  | some (.arr vs) => vs[i]?
  | _ => none

/-- The hop map built at plugin.go:201-212, as a heap object (all five
values are scalars). -/
def buildHopObj (hop : Hop) : HObj :=
  .map [("hop", .int hop.hop), ("host", .str hop.host),
        ("name", .str hop.name), ("rtt", .rat hop.rtt),
        ("status", .str hop.status)]

/-- Allocate the hop maps of a run in order, returning the heap and the
slice contents (one reference per hop, as in the Go `hops` slice of
maps). -/
def buildHops (h : Heap) : List Hop → Heap × List HVal
  | [] => (h, [])
  | hop :: rest =>
    let p := alloc h (buildHopObj hop)
    let q := buildHops p.1 rest
    (q.1, .ref p.2 :: q.2)

/-- Allocate the full result map of plugin.go:217-222 on the heap: hop
maps, then the `hops` slice, then the top-level result map referencing
it. Returns the heap and the result map's address. -/
def buildResult (h : Heap) (r : RunResult) : Heap × Nat :=
  let p := buildHops h r.hops
  let q := alloc p.1 (.arr p.2)
  alloc q.1 (.map [("host", .str r.host), ("hops", .ref q.2),
                   ("timestamp", .str r.timestamp),
                   ("rawOutput", .str r.rawOutput)])

/-- The history copy of plugin.go:54-57: a fresh map holding the same
top-level bindings as the result map (`for k, v := range resultMap`);
reference values keep pointing at the shared nested objects. -/
def historyCopy (h : Heap) (a : Nat) : Heap × Nat :=
  match h[a]? with
  | some (.map es) => alloc h (.map es)
  | _ => alloc h (.map [])

/-- A fully dereferenced snapshot of a heap value, for comparing what two
reads of a stored entry observe. -/
inductive Snap where
  | str (s : String)
  | int (n : ℤ)
  | rat (q : ℚ)
  | bool (b : Bool)
  | map (entries : List (String × Snap))
  | arr (elems : List Snap)
  | bad
deriving Repr

/-- Dereference a value down to `fuel` levels of indirection. -/
def readVal (h : Heap) : Nat → HVal → Snap
  | 0, _ => .bad
  | _ + 1, .str s => .str s
  | _ + 1, .int n => .int n
  | _ + 1, .rat q => .rat q
  | _ + 1, .bool b => .bool b
  | fuel + 1, .ref a =>
    match h[a]? with
    | some (.map es) => .map (es.map fun (e : String × HVal) => (e.1, readVal h fuel e.2))
    | some (.arr vs) => .arr (vs.map fun (v : HVal) => readVal h fuel v)
    | none => .bad

/-- Read the round-trip value of hop `i` through the result map at address
`a` (follow `hops`, index the slice, read `rtt`). -/
def readHopRtt (h : Heap) (a i : Nat) : Option HVal :=
  match mapLookup h a "hops" with
  | some (.ref sa) =>
    match arrGet h sa i with
    | some (.ref ha) => mapLookup h ha "rtt"
    | _ => none
  | _ => none

/-- Mutate hop `i`'s `rtt` through the result map at address `a`: the kind
of nested mutation the deep-copy invariant quantifies over. -/
def mutateHopRtt (h : Heap) (a i : Nat) (q : ℚ) : Heap :=
  match mapLookup h a "hops" with
  | some (.ref sa) =>
    match arrGet h sa i with
    | some (.ref ha) => mapSet h ha "rtt" (.rat q)
    | _ => h
  | _ => h

/-- Holds when every reference in the value points below `m`. -/
def valBelow (m : Nat) : HVal → Bool
  | .ref a => a < m
  | _ => true

/-- Holds when every reference in the object points below `m`. -/
def objBelow (m : Nat) : HObj → Bool
  | .map es => es.all fun e => valBelow m e.2
  | .arr vs => vs.all (valBelow m)

/-- The heap region below `m` is closed: objects there reference only
addresses below `m`. -/
def heapClosedBelow (m : Nat) (h : Heap) : Prop :=
  ∀ a, a < m → ∀ o, h[a]? = some o → objBelow m o = true

/-- Concrete resolver used in witnesses: every reverse lookup errors, so
display names fall back to the address (plugin.go:188-189). -/
def resolveNone : Resolver := fun _ => none

/-! ### Branch equations of the hop parser -/

theorem parseHopLine_none_short (resolve : Resolver) (line : String)
    (h2 : (fields line).length < 2) : parseHopLine resolve line = none := by
  unfold parseHopLine
  rw [if_pos h2]

theorem parseHopLine_none_atoi (resolve : Resolver) (line : String)
    (h2 : ¬ (fields line).length < 2)
    (hn : goAtoi ((fields line).getD 0 "") = none) :
    parseHopLine resolve line = none := by
  unfold parseHopLine
  rw [if_neg h2, hn]

theorem parseHopLine_responsive (resolve : Resolver) (line : String) (n : ℤ)
    (h2 : ¬ (fields line).length < 2)
    (hn : goAtoi ((fields line).getD 0 "") = some n)
    (hc : 4 ≤ (fields line).length ∧ (fields line).getD 1 "" ≠ "*") :
    parseHopLine resolve line =
      some { hop := n
             host := (fields line).getD 1 ""
             name :=
               match resolve ((fields line).getD 1 "") with
               | some (a :: _) => trimSuffix a "."
               | _ => (fields line).getD 1 ""
             rtt := (goParseFloat (trimSuffix ((fields line).getD 2 "") "ms")).getD 0
             status := "OK" } := by
  unfold parseHopLine
  rw [if_neg h2, hn]
  simp only [if_pos hc, if_pos hc.2]

theorem parseHopLine_unresponsive (resolve : Resolver) (line : String) (n : ℤ)
    (h2 : ¬ (fields line).length < 2)
    (hn : goAtoi ((fields line).getD 0 "") = some n)
    (hc : ¬ (4 ≤ (fields line).length ∧ (fields line).getD 1 "" ≠ "*")) :
    parseHopLine resolve line =
      some { hop := n, host := "*", name := "*", rtt := 0, status := "NO RESPONSE" } := by
  unfold parseHopLine
  rw [if_neg h2, hn]
  simp only [if_neg hc]
  simp

/-- Inversion: an emitted record comes from a line with at least two
tokens whose first token `Atoi`-parses to the record's hop number, and is
produced by one of the two branches. -/
theorem parseHopLine_inv (resolve : Resolver) (line : String) (h : Hop)
    (hp : parseHopLine resolve line = some h) :
    ¬ (fields line).length < 2 ∧ goAtoi ((fields line).getD 0 "") = some h.hop := by
  by_cases h2 : (fields line).length < 2
  · rw [parseHopLine_none_short resolve line h2] at hp
    exact absurd hp (by simp)
  · refine ⟨h2, ?_⟩
    cases hn : goAtoi ((fields line).getD 0 "") with
    | none =>
      rw [parseHopLine_none_atoi resolve line h2 hn] at hp
      exact absurd hp (by simp)
    | some n =>
      by_cases hc : 4 ≤ (fields line).length ∧ (fields line).getD 1 "" ≠ "*"
      · rw [parseHopLine_responsive resolve line n h2 hn hc] at hp
        cases hp
        rfl
      · rw [parseHopLine_unresponsive resolve line n h2 hn hc] at hp
        cases hp
        rfl

/-! ### Claims about the hop parser -/

/-- C5: every hop line whose second whitespace-delimited token is the
timeout sentinel `*` (and that carries hop data at all: at least two
tokens, integer first token) is emitted as an unresponsive record with
address `*`, display name `*`, round-trip 0 and status `NO RESPONSE`. -/
theorem parseHopLine_timeout_sentinel (resolve : Resolver) (line : String) (n : ℤ)
    (h2 : 2 ≤ (fields line).length)
    (hn : goAtoi ((fields line).getD 0 "") = some n)
    (hs : (fields line).getD 1 "" = "*") :
    parseHopLine resolve line =
      some { hop := n, host := "*", name := "*", rtt := 0, status := "NO RESPONSE" } :=
  parseHopLine_unresponsive resolve line n (by omega) hn fun hcon => hcon.2 hs

/-- Witness for C5 on the concrete line `"2 *"`. -/
theorem parseHopLine_timeout_sentinel_witness :
    parseHopLine resolveNone "2 *" =
      some { hop := 2, host := "*", name := "*", rtt := 0, status := "NO RESPONSE" } :=
  parseHopLine_timeout_sentinel resolveNone "2 *" 2 (by decide) (by decide) (by decide)

/-- C6 counterexample: the first token of `"-3 *"` is not a positive
integer, yet the line is not skipped — a record with hop number `-3` is
emitted, so not every emitted record has a positive hop number. -/
theorem parseHopLine_emits_nonpositive_hop :
    parseHopLine resolveNone "-3 *" =
      some { hop := -3, host := "*", name := "*", rtt := 0, status := "NO RESPONSE" } ∧
    ¬ (0 < (-3 : ℤ)) := by
  exact ⟨by decide, by decide⟩

/-- C6 (amended): a line with fewer than two whitespace-delimited tokens,
or whose first token does not `Atoi`-parse as an integer (of any sign), is
skipped with no error; every emitted record's hop number is exactly the
integer parsed from the first token — not necessarily positive. -/
theorem parseHopLine_skip_conditions (resolve : Resolver) (line : String) :
    ((fields line).length < 2 → parseHopLine resolve line = none) ∧
    (goAtoi ((fields line).getD 0 "") = none → parseHopLine resolve line = none) ∧
    (∀ h : Hop, parseHopLine resolve line = some h →
      goAtoi ((fields line).getD 0 "") = some h.hop) := by
  refine ⟨parseHopLine_none_short resolve line, ?_, ?_⟩
  · intro hn
    by_cases h2 : (fields line).length < 2
    · exact parseHopLine_none_short resolve line h2
    · exact parseHopLine_none_atoi resolve line h2 hn
  · intro h hp
    exact (parseHopLine_inv resolve line h hp).2

/-- Witness for C6 (amended): a one-token line and a non-numeric first
token are both skipped. -/
theorem parseHopLine_skip_conditions_witness :
    parseHopLine resolveNone "x" = none ∧ parseHopLine resolveNone "a b" = none :=
  ⟨(parseHopLine_skip_conditions resolveNone "x").1 (by decide),
   (parseHopLine_skip_conditions resolveNone "a b").2.1 (by decide)⟩

/-- C7: every emitted hop record is internally consistent: status `OK`
(reachable) holds iff the address is not `*`, and an address of `*` forces
round-trip 0 and display name `*`. -/
theorem parseHopLine_consistency (resolve : Resolver) (line : String) (h : Hop)
    (hp : parseHopLine resolve line = some h) :
    (h.status = "OK" ↔ h.host ≠ "*") ∧ (h.host = "*" → h.rtt = 0 ∧ h.name = "*") := by
  by_cases h2 : (fields line).length < 2
  · rw [parseHopLine_none_short resolve line h2] at hp
    exact absurd hp (by simp)
  cases hgo : goAtoi ((fields line).getD 0 "") with
  | none =>
    rw [parseHopLine_none_atoi resolve line h2 hgo] at hp
    exact absurd hp (by simp)
  | some n =>
    by_cases hc : 4 ≤ (fields line).length ∧ (fields line).getD 1 "" ≠ "*"
    · rw [parseHopLine_responsive resolve line n h2 hgo hc] at hp
      cases hp
      exact ⟨⟨fun _ => hc.2, fun _ => rfl⟩, fun hcontra => absurd hcontra hc.2⟩
    · rw [parseHopLine_unresponsive resolve line n h2 hgo hc] at hp
      cases hp
      exact ⟨⟨fun hok => by simp at hok, fun hne => absurd rfl hne⟩,
             fun _ => ⟨rfl, rfl⟩⟩

/-- Witness for C7 at the concrete line `"2 *"`. -/
theorem parseHopLine_consistency_witness :
    ((⟨2, "*", "*", 0, "NO RESPONSE"⟩ : Hop).status = "OK" ↔
      (⟨2, "*", "*", 0, "NO RESPONSE"⟩ : Hop).host ≠ "*") ∧
    ((⟨2, "*", "*", 0, "NO RESPONSE"⟩ : Hop).host = "*" →
      (⟨2, "*", "*", 0, "NO RESPONSE"⟩ : Hop).rtt = 0 ∧
      (⟨2, "*", "*", 0, "NO RESPONSE"⟩ : Hop).name = "*") :=
  parseHopLine_consistency resolveNone "2 *" ⟨2, "*", "*", 0, "NO RESPONSE"⟩ (by decide)

set_option maxHeartbeats 1600000 in
/-- C9: on a responsive hop line (at least four tokens, second token not
`*`, integer first token) the round-trip value is the third token with a
trailing `ms` stripped: if it parses the record carries the parsed value,
if not it carries 0, and the record is emitted either way. -/
theorem parseHopLine_rtt_parsing (resolve : Resolver) (line : String) (n : ℤ)
    (h4 : 4 ≤ (fields line).length)
    (hn : goAtoi ((fields line).getD 0 "") = some n)
    (hs : (fields line).getD 1 "" ≠ "*") :
    ∃ h : Hop, parseHopLine resolve line = some h ∧
      h.rtt = (goParseFloat (trimSuffix ((fields line).getD 2 "") "ms")).getD 0 ∧
      (∀ q : ℚ, goParseFloat (trimSuffix ((fields line).getD 2 "") "ms") = some q →
        h.rtt = q) ∧
      (goParseFloat (trimSuffix ((fields line).getD 2 "") "ms") = none → h.rtt = 0) := by
  refine ⟨_, parseHopLine_responsive resolve line n (by omega) hn ⟨h4, hs⟩, rfl, ?_, ?_⟩
  · intro q hq
    show (goParseFloat (trimSuffix ((fields line).getD 2 "") "ms")).getD 0 = q
    rw [hq]
    rfl
  · intro hq
    show (goParseFloat (trimSuffix ((fields line).getD 2 "") "ms")).getD 0 = 0
    rw [hq]
    rfl

set_option maxHeartbeats 1600000 in
/-- Witness for C9 on the concrete line `"1 10.0.0.1 1.234 ms"` (the third
token parses to 1234/1000). -/
theorem parseHopLine_rtt_parsing_witness :
    ∃ h : Hop, parseHopLine resolveNone "1 10.0.0.1 1.234 ms" = some h ∧
      h.rtt = (goParseFloat (trimSuffix ((fields "1 10.0.0.1 1.234 ms").getD 2 "") "ms")).getD 0 ∧
      (∀ q : ℚ,
        goParseFloat (trimSuffix ((fields "1 10.0.0.1 1.234 ms").getD 2 "") "ms") = some q →
        h.rtt = q) ∧
      (goParseFloat (trimSuffix ((fields "1 10.0.0.1 1.234 ms").getD 2 "") "ms") = none →
        h.rtt = 0) :=
  parseHopLine_rtt_parsing resolveNone "1 10.0.0.1 1.234 ms" 1
    (by decide) (by decide) (by decide)

/-- C10: a line with two or three tokens whose first token parses as an
integer and whose second token is not `*` is neither skipped nor treated
as responsive: the second token is discarded and an unresponsive record
(address `*`, display name `*`, rtt 0, status `NO RESPONSE`) is
emitted. -/
theorem parseHopLine_short_line_unresponsive (resolve : Resolver) (line : String) (n : ℤ)
    (h2 : 2 ≤ (fields line).length) (h4 : (fields line).length < 4)
    (hn : goAtoi ((fields line).getD 0 "") = some n)
    (_hs : (fields line).getD 1 "" ≠ "*") :
    parseHopLine resolve line =
      some { hop := n, host := "*", name := "*", rtt := 0, status := "NO RESPONSE" } :=
  parseHopLine_unresponsive resolve line n (by omega) hn fun hcon =>
    absurd hcon.1 (by omega)

/-- Witness for C10 on the concrete two-token line `"5 10.0.0.1"`. -/
theorem parseHopLine_short_line_unresponsive_witness :
    parseHopLine resolveNone "5 10.0.0.1" =
      some { hop := 5, host := "*", name := "*", rtt := 0, status := "NO RESPONSE" } :=
  parseHopLine_short_line_unresponsive resolveNone "5 10.0.0.1" 5
    (by decide) (by decide) (by decide) (by decide)

/-! ### Claims about the run layer -/

/-- Concrete probes for witnesses and counterexamples. -/
def probeOKEmpty : Probe := fun _ _ => ⟨false, "", "", ""⟩

def probeFailSilent : Probe := fun _ _ => ⟨true, "exit status 1", "", ""⟩

def probeFailLoud : Probe := fun _ _ => ⟨true, "exit status 1", "", "unreachable"⟩

/-- A probe that fails echoing the max-hop count it was handed into the
diagnostic text, making the passed value observable. -/
def probeEcho : Probe := fun _ mh => ⟨true, "err", "", toString mh⟩

/-- With a non-empty host the run is exactly the continuation applied to
the probe's outcome at `(host, maxHopsOf params)`. -/
theorem performTraceroute_probe_eq (resolve : Resolver) (timestamp : String)
    (probe : Probe) (params : Params) (hhost : getString params "host" ≠ "") :
    performTraceroute resolve timestamp probe params =
      probeResultCont resolve timestamp (getString params "host")
        (probe (getString params "host") (maxHopsOf params)) := by
  simp only [performTraceroute]
  rw [if_neg hhost]

/-- C8: an empty or missing target host fails with the parameter error,
the probe collaborator is never invoked (invocation count 0), and the
iteration state is unchanged. -/
theorem performTraceroute_empty_host (resolve : Resolver) (timestamp elapsed : String)
    (probe : Probe) (params : Params) (st : PState)
    (hhost : getString params "host" = "") :
    performTraceroute resolve timestamp probe params
      = (.error "host parameter is required", 0) ∧
    (executeWithIteration resolve timestamp elapsed probe params st).1
      = (.error "host parameter is required", 0) ∧
    (executeWithIteration resolve timestamp elapsed probe params st).2 = st := by
  have h1 : performTraceroute resolve timestamp probe params
      = (.error "host parameter is required", 0) := by
    simp only [performTraceroute]
    rw [hhost, if_pos rfl]
  refine ⟨h1, ?_, ?_⟩
  · unfold executeWithIteration
    rw [h1]
  · unfold executeWithIteration
    rw [h1]

/-- Witness for C8 at the empty parameter bag. -/
theorem performTraceroute_empty_host_witness :
    performTraceroute resolveNone "t" probeOKEmpty []
      = (.error "host parameter is required", 0) ∧
    (executeWithIteration resolveNone "t" "e" probeOKEmpty [] ⟨[], 0⟩).1
      = (.error "host parameter is required", 0) ∧
    (executeWithIteration resolveNone "t" "e" probeOKEmpty [] ⟨[], 0⟩).2 = ⟨[], 0⟩ :=
  performTraceroute_empty_host resolveNone "t" "e" probeOKEmpty [] ⟨[], 0⟩ (by decide)

/-- C1 (amended): with a non-empty host, a probe failure accompanied by
diagnostic text fails the run with the probe-execution error carrying that
text; a probe failure with empty diagnostic text does NOT fail the run —
stdout is parsed and a full RunResult is returned. -/
theorem performTraceroute_probe_failure (resolve : Resolver) (timestamp : String)
    (probe : Probe) (params : Params)
    (hhost : getString params "host" ≠ "")
    (hfail : (probe (getString params "host") (maxHopsOf params)).failed = true) :
    ((probe (getString params "host") (maxHopsOf params)).stderr ≠ "" →
      performTraceroute resolve timestamp probe params =
        (.error ("traceroute failed: "
            ++ (probe (getString params "host") (maxHopsOf params)).errText ++ ": "
            ++ (probe (getString params "host") (maxHopsOf params)).stderr), 1)) ∧
    ((probe (getString params "host") (maxHopsOf params)).stderr = "" →
      performTraceroute resolve timestamp probe params =
        (.ok { host := getString params "host"
               hops := parseOutput resolve
                 (probe (getString params "host") (maxHopsOf params)).stdout
               timestamp := timestamp
               rawOutput := (probe (getString params "host") (maxHopsOf params)).stdout },
         1)) := by
  rw [performTraceroute_probe_eq resolve timestamp probe params hhost]
  constructor
  · intro hs
    unfold probeResultCont
    rw [if_pos ⟨hfail, hs⟩]
  · intro hs
    unfold probeResultCont
    rw [if_neg fun hcon => hcon.2 hs]

/-- Witness for C1 (amended), loud-failure half, on a concrete probe. -/
theorem performTraceroute_probe_failure_witness :
    performTraceroute resolveNone "t" probeFailLoud [("host", ParamVal.str "h")] =
      (.error "traceroute failed: exit status 1: unreachable", 1) :=
  (performTraceroute_probe_failure resolveNone "t" probeFailLoud
      [("host", ParamVal.str "h")] (by decide) rfl).1 (by decide)

/-- C1 counterexample: a probe that reports failure but produces no
diagnostic text does not fail the run — a full RunResult is returned,
contradicting "in no failing case is a RunResult returned". -/
theorem performTraceroute_silent_failure_returns_ok :
    (probeFailSilent "h" (maxHopsOf [("host", ParamVal.str "h")])).failed = true ∧
    (probeFailSilent "h" (maxHopsOf [("host", ParamVal.str "h")])).stderr = "" ∧
    performTraceroute resolveNone "t" probeFailSilent [("host", ParamVal.str "h")] =
      (.ok { host := "h", hops := [], timestamp := "t", rawOutput := "" }, 1) :=
  ⟨rfl, rfl, rfl⟩

/-- C3 (amended): the default of 30 applies only when the `maxHops`
parameter is absent or not a number; a numeric value is truncated toward
zero and handed to the probe as-is (no positivity check), the probe being
invoked with exactly `maxHopsOf params`. -/
theorem maxHops_default_and_passthrough (params : Params) :
    (getNumQ params "maxHops" = none → maxHopsOf params = 30) ∧
    (∀ q : ℚ, getNumQ params "maxHops" = some q → maxHopsOf params = goTrunc q) ∧
    (∀ (resolve : Resolver) (timestamp : String) (probe : Probe),
      getString params "host" ≠ "" →
      performTraceroute resolve timestamp probe params =
        probeResultCont resolve timestamp (getString params "host")
          (probe (getString params "host") (maxHopsOf params))) := by
  refine ⟨?_, ?_, fun resolve timestamp probe hhost =>
    performTraceroute_probe_eq resolve timestamp probe params hhost⟩
  · intro hq
    unfold maxHopsOf
    rw [hq]
    rfl
  · intro q hq
    unfold maxHopsOf
    rw [hq]
    rfl

/-- Witness for C3 (amended): bag without a numeric maxHops defaults to
30, bag with maxHops = 7 uses 7. -/
theorem maxHops_default_and_passthrough_witness :
    maxHopsOf [("host", ParamVal.str "h")] = 30 ∧
    maxHopsOf [("host", ParamVal.str "h"), ("maxHops", ParamVal.num 7)] = goTrunc 7 :=
  ⟨(maxHops_default_and_passthrough [("host", ParamVal.str "h")]).1 (by decide),
   (maxHops_default_and_passthrough
      [("host", ParamVal.str "h"), ("maxHops", ParamVal.num 7)]).2.1 7 (by decide)⟩

/-- C3 counterexample: `maxHops = -5` is a number but not a valid positive
one, yet the run uses -5 rather than 30, and the probe receives -5 (echoed
into the diagnostic by `probeEcho`) — the value passed to the collaborator
is not always positive. -/
theorem maxHops_negative_passthrough :
    maxHopsOf [("host", ParamVal.str "h"), ("maxHops", ParamVal.num (-5))] = -5 ∧
    ¬ (0 < maxHopsOf [("host", ParamVal.str "h"), ("maxHops", ParamVal.num (-5))]) ∧
    performTraceroute resolveNone "t" probeEcho
        [("host", ParamVal.str "h"), ("maxHops", ParamVal.num (-5))] =
      (.error "traceroute failed: err: -5", 1) :=
  ⟨by decide, by decide, rfl⟩

/-- One successful iterated call appends the captured result to history
and bumps the counter by one. -/
theorem executeWithIteration_ok_state (resolve : Resolver) (timestamp elapsed : String)
    (probe : Probe) (params : Params) (st : PState) (r : RunResult) (n : Nat)
    (hok : performTraceroute resolve timestamp probe params = (.ok r, n)) :
    (executeWithIteration resolve timestamp elapsed probe params st).2
      = ⟨st.results ++ [r], st.iterationCount + 1⟩ := by
  unfold executeWithIteration
  rw [hok]

/-- A failed iterated call propagates the error and leaves the state
untouched. -/
theorem executeWithIteration_error_state (resolve : Resolver) (timestamp elapsed : String)
    (probe : Probe) (params : Params) (st : PState) (e : String) (n : Nat)
    (he : performTraceroute resolve timestamp probe params = (.error e, n)) :
    executeWithIteration resolve timestamp elapsed probe params st = ((.error e, n), st) := by
  unfold executeWithIteration
  rw [he]

/-- Folding any all-successful call list adds its length to both the
counter and the history length. -/
theorem iterateCalls_ok (resolve : Resolver) :
    ∀ (calls : List CallInput) (st : PState),
      (∀ c ∈ calls,
        exceptIsOk (performTraceroute resolve c.timestamp c.probe c.params).1 = true) →
      (iterateCalls resolve st calls).iterationCount = st.iterationCount + calls.length ∧
      (iterateCalls resolve st calls).results.length = st.results.length + calls.length := by
  intro calls
  induction calls with
  | nil => exact fun st _ => ⟨rfl, rfl⟩
  | cons c cs ih =>
    intro st hall
    have hc := hall c (List.mem_cons_self c cs)
    cases hp : (performTraceroute resolve c.timestamp c.probe c.params).1 with
    | error e =>
      rw [hp] at hc
      exact absurd hc (by simp [exceptIsOk])
    | ok r =>
      have hfull : performTraceroute resolve c.timestamp c.probe c.params
          = (.ok r, (performTraceroute resolve c.timestamp c.probe c.params).2) := by
        rw [← hp]
      have hstep := executeWithIteration_ok_state resolve c.timestamp c.elapsed c.probe
        c.params st r (performTraceroute resolve c.timestamp c.probe c.params).2 hfull
      have ihr := ih ((executeWithIteration resolve c.timestamp c.elapsed c.probe
        c.params st).2) fun d hd => hall d (List.mem_cons_of_mem c hd)
      rw [hstep] at ihr
      simp only [iterateCalls]
      rw [hstep]
      refine ⟨?_, ?_⟩
      · rw [ihr.1]
        simp only [List.length_cons]
        omega
      · rw [ihr.2]
        simp
        omega

/-- C4: from a fresh accumulator, N iterated calls whose probe invocations
all succeed leave iterationCount = N and history length = N; a call whose
probe invocation fails returns the error unchanged and leaves both the
counter and the history exactly as they were. -/
theorem executeWithIteration_count_and_history (resolve : Resolver) :
    (∀ calls : List CallInput,
      (∀ c ∈ calls,
        exceptIsOk (performTraceroute resolve c.timestamp c.probe c.params).1 = true) →
      (iterateCalls resolve ⟨[], 0⟩ calls).iterationCount = calls.length ∧
      (iterateCalls resolve ⟨[], 0⟩ calls).results.length = calls.length) ∧
    (∀ (c : CallInput) (st : PState) (e : String) (n : Nat),
      performTraceroute resolve c.timestamp c.probe c.params = (.error e, n) →
      executeWithIteration resolve c.timestamp c.elapsed c.probe c.params st
        = ((.error e, n), st)) := by
  constructor
  · intro calls hall
    have h := iterateCalls_ok resolve calls ⟨[], 0⟩ hall
    simpa using h
  · intro c st e n he
    exact executeWithIteration_error_state resolve c.timestamp c.elapsed c.probe
      c.params st e n he

/-- Concrete call inputs for the C4 witness. -/
def callOK : CallInput := ⟨"t", "e", probeOKEmpty, [("host", ParamVal.str "h")]⟩

def callBad : CallInput := ⟨"t", "e", probeOKEmpty, []⟩

/-- Witness for C4: one successful call from the fresh state yields count
1 and one stored run; a call with an empty host propagates the error and
leaves the fresh state unchanged. -/
theorem executeWithIteration_count_and_history_witness :
    ((iterateCalls resolveNone ⟨[], 0⟩ [callOK]).iterationCount = 1 ∧
     (iterateCalls resolveNone ⟨[], 0⟩ [callOK]).results.length = 1) ∧
    executeWithIteration resolveNone "t" "e" probeOKEmpty [] ⟨[], 0⟩
      = ((.error "host parameter is required", 0), ⟨[], 0⟩) :=
  ⟨(executeWithIteration_count_and_history resolveNone).1 [callOK]
      (by
        intro c hc
        simp only [List.mem_singleton] at hc
        subst hc
        decide),
   (executeWithIteration_count_and_history resolveNone).2 callBad ⟨[], 0⟩
      "host parameter is required" 0 rfl⟩

/-! ### Claims about the history copy (heap model) -/

theorem mapSet_getElem?_ne (h : Heap) (a : Nat) (k : String) (v : HVal) (b : Nat)
    (hne : b ≠ a) : (mapSet h a k v)[b]? = h[b]? := by
  unfold mapSet
  cases ho : h[a]? with
  | none => rfl
  | some o =>
    cases o with
    | map es => exact List.getElem?_set_ne (fun hc => hne hc.symm)
    | arr vs => rfl

/-- Reads of a value referencing only the region below `m` are unchanged
by heap modifications at or above `m`, provided the region below `m` is
closed. -/
theorem readVal_congr (m : Nat) (h h' : Heap)
    (hcl : heapClosedBelow m h)
    (hag : ∀ a, a < m → h'[a]? = h[a]?) :
    ∀ (fuel : Nat) (v : HVal), valBelow m v = true →
      readVal h' fuel v = readVal h fuel v := by
  intro fuel
  induction fuel with
  | zero => intro v _; rfl
  | succ f ih =>
    intro v hv
    cases v with
    | str s => rfl
    | int n => rfl
    | rat q => rfl
    | bool b => rfl
    | ref a =>
      have ha : a < m := by simpa [valBelow] using hv
      simp only [readVal]
      rw [hag a ha]
      cases ho : h[a]? with
      | none => rfl
      | some o =>
        have hb := hcl a ha o ho
        cases o with
        | map es =>
          simp only [objBelow, List.all_eq_true] at hb
          exact congrArg Snap.map
            (List.map_congr_left fun e he => by rw [ih e.2 (hb e he)])
        | arr vs =>
          simp only [objBelow, List.all_eq_true] at hb
          exact congrArg Snap.arr (List.map_congr_left fun w hw => ih w (hb w hw))

theorem buildHops_spec : ∀ (hops : List Hop) (h : Heap),
    buildHops h hops =
      (h ++ hops.map buildHopObj,
       (List.range hops.length).map fun i => HVal.ref (h.length + i)) := by
  intro hops
  induction hops with
  | nil =>
    intro h
    simp [buildHops]
  | cons hop rest ih =>
    intro h
    simp only [buildHops, alloc]
    rw [ih]
    refine Prod.ext ?_ ?_
    · simp
    · simp only [List.length_cons, List.length_append, List.length_map,
        List.range_succ_eq_map, List.map_cons, List.map_map]
      refine congrArg₂ _ (by simp) ?_
      apply List.map_congr_left
      intro i _
      simp only [Function.comp_apply, List.length_append, List.length_cons,
        List.length_nil]
      exact congrArg HVal.ref (by omega)

/-- The top-level bindings of the result map as allocated by
`buildResult` on the empty heap: scalars plus one reference to the hops
slice at address `r.hops.length`. -/
def resultEntries (r : RunResult) : List (String × HVal) :=
  [("host", .str r.host), ("hops", .ref r.hops.length),
   ("timestamp", .str r.timestamp), ("rawOutput", .str r.rawOutput)]

/-- The hops slice object allocated by `buildResult` on the empty heap. -/
def hopsArrObj (r : RunResult) : HObj :=
  .arr ((List.range r.hops.length).map fun i => HVal.ref i)

theorem buildResult_nil (r : RunResult) :
    buildResult [] r =
      ((r.hops.map buildHopObj ++ [hopsArrObj r]) ++ [.map (resultEntries r)],
       r.hops.length + 1) := by
  unfold buildResult alloc
  rw [buildHops_spec r.hops []]
  simp only [List.nil_append, List.length_nil, List.length_append,
    List.length_map, List.length_cons]
  refine Prod.ext ?_ ?_
  · simp only [hopsArrObj, resultEntries]
    refine congrArg₂ _ (congrArg₂ _ rfl (congrArg (fun x => [HObj.arr x])
      (List.map_congr_left fun i _ => congrArg HVal.ref (by omega)))) ?_
    simp
  · simp

theorem historyCopy_buildResult (r : RunResult) :
    historyCopy (buildResult [] r).1 (buildResult [] r).2 =
      ((buildResult [] r).1 ++ [.map (resultEntries r)], r.hops.length + 2) := by
  rw [buildResult_nil r]
  unfold historyCopy
  have hget : ((r.hops.map buildHopObj ++ [hopsArrObj r])
        ++ [HObj.map (resultEntries r)])[r.hops.length + 1]?
      = some (HObj.map (resultEntries r)) := by
    rw [List.getElem?_append_right (by simp)]
    simp
  rw [hget]
  unfold alloc
  refine Prod.ext rfl ?_
  simp

theorem resultEntries_below (r : RunResult) :
    ∀ e ∈ resultEntries r, valBelow (r.hops.length + 1) e.2 = true := by
  intro e he
  simp only [resultEntries, List.mem_cons, List.not_mem_nil, or_false] at he
  rcases he with h | h | h | h <;> subst h <;> simp [valBelow]

/-- The region of hop objects and the hops slice is closed below
`r.hops.length + 1` in the post-copy heap. -/
theorem closedBelow_builtHeap (r : RunResult) :
    heapClosedBelow (r.hops.length + 1)
      ((buildResult [] r).1 ++ [.map (resultEntries r)]) := by
  intro a ha o ho
  rw [buildResult_nil r] at ho
  have hlen1 : (r.hops.map buildHopObj ++ [hopsArrObj r]).length
      = r.hops.length + 1 := by simp
  rw [List.getElem?_append_left (by simp; omega),
      List.getElem?_append_left (by omega)] at ho
  by_cases han : a < r.hops.length
  · rw [List.getElem?_append_left (by simpa using han), List.getElem?_map] at ho
    cases hh : r.hops[a]? with
    | none => rw [hh] at ho; exact absurd ho (by simp)
    | some hop =>
      rw [hh] at ho
      have : o = buildHopObj hop := by simpa using ho.symm
      subst this
      simp [buildHopObj, objBelow, valBelow]
  · have haeq : a = r.hops.length := by omega
    subst haeq
    rw [List.getElem?_append_right (by simp)] at ho
    simp only [List.length_map, Nat.sub_self, List.getElem?_cons_zero,
      Option.some.injEq] at ho
    subst ho
    simp only [hopsArrObj, objBelow, List.all_eq_true, List.mem_map,
      List.mem_range]
    rintro x ⟨i, hi, rfl⟩
    simp only [valBelow, decide_eq_true_eq]
    omega

/-- C2 (amended): the history entry stored at capture time is a top-level
(shallow) copy of the result map: mutating any top-level binding of the
returned result map after the call — e.g. attaching the iteration
metadata — never changes what the stored history entry reads; the nested
hop records, however, remain shared between the two maps (see the
counterexample theorem). -/
theorem historyCopy_top_level_isolation (r : RunResult) (k : String) (v : HVal)
    (fuel : Nat) :
    readVal
        (mapSet (historyCopy (buildResult [] r).1 (buildResult [] r).2).1
          (buildResult [] r).2 k v)
        fuel (.ref (historyCopy (buildResult [] r).1 (buildResult [] r).2).2)
      = readVal (historyCopy (buildResult [] r).1 (buildResult [] r).2).1 fuel
          (.ref (historyCopy (buildResult [] r).1 (buildResult [] r).2).2) := by
  have hcopy := historyCopy_buildResult r
  have h1 : (historyCopy (buildResult [] r).1 (buildResult [] r).2).1
      = (buildResult [] r).1 ++ [.map (resultEntries r)] := by rw [hcopy]
  have h2 : (historyCopy (buildResult [] r).1 (buildResult [] r).2).2
      = r.hops.length + 2 := by rw [hcopy]
  have hra : (buildResult [] r).2 = r.hops.length + 1 := by rw [buildResult_nil]
  have hlen : ((buildResult [] r).1).length = r.hops.length + 2 := by
    rw [buildResult_nil]
    simp
  rw [h1, h2, hra]
  cases fuel with
  | zero => rfl
  | succ f =>
    have hco : ((buildResult [] r).1 ++ [HObj.map (resultEntries r)])[r.hops.length + 2]?
        = some (.map (resultEntries r)) := by
      rw [List.getElem?_append_right (by omega)]
      simp [hlen]
    have hco' : (mapSet ((buildResult [] r).1 ++ [HObj.map (resultEntries r)])
          (r.hops.length + 1) k v)[r.hops.length + 2]?
        = some (.map (resultEntries r)) := by
      rw [mapSet_getElem?_ne _ _ _ _ _ (by omega)]
      exact hco
    simp only [readVal, hco, hco']
    exact congrArg Snap.map (List.map_congr_left fun e he => by
      rw [readVal_congr (r.hops.length + 1)
        ((buildResult [] r).1 ++ [HObj.map (resultEntries r)])
        (mapSet ((buildResult [] r).1 ++ [HObj.map (resultEntries r)])
          (r.hops.length + 1) k v)
        (closedBelow_builtHeap r)
        (fun a ha => mapSet_getElem?_ne _ _ _ _ _ (by omega))
        f e.2 (resultEntries_below r e he)])

/-- C2 counterexample: for a one-hop run, mutating the nested hop record
through the returned result map after capture (setting its rtt to 99)
changes what the stored history entry reads for that hop — the copy of
plugin.go:54-57 copies only the top-level bindings, so nested hop records
are shared, and the history entry is not a deep copy. -/
theorem historyCopy_shares_nested_hops :
    (readHopRtt
        (historyCopy
          (buildResult [] ⟨"h", [⟨1, "10.0.0.1", "10.0.0.1", 1, "OK"⟩], "t", "raw"⟩).1
          (buildResult [] ⟨"h", [⟨1, "10.0.0.1", "10.0.0.1", 1, "OK"⟩], "t", "raw"⟩).2).1
        (historyCopy
          (buildResult [] ⟨"h", [⟨1, "10.0.0.1", "10.0.0.1", 1, "OK"⟩], "t", "raw"⟩).1
          (buildResult [] ⟨"h", [⟨1, "10.0.0.1", "10.0.0.1", 1, "OK"⟩], "t", "raw"⟩).2).2
        0 = some (.rat 1)) ∧
    (readHopRtt
        (mutateHopRtt
          (historyCopy
            (buildResult [] ⟨"h", [⟨1, "10.0.0.1", "10.0.0.1", 1, "OK"⟩], "t", "raw"⟩).1
            (buildResult [] ⟨"h", [⟨1, "10.0.0.1", "10.0.0.1", 1, "OK"⟩], "t", "raw"⟩).2).1
          (buildResult [] ⟨"h", [⟨1, "10.0.0.1", "10.0.0.1", 1, "OK"⟩], "t", "raw"⟩).2
          0 99)
        (historyCopy
          (buildResult [] ⟨"h", [⟨1, "10.0.0.1", "10.0.0.1", 1, "OK"⟩], "t", "raw"⟩).1
          (buildResult [] ⟨"h", [⟨1, "10.0.0.1", "10.0.0.1", 1, "OK"⟩], "t", "raw"⟩).2).2
        0 = some (.rat 99)) := by
  exact ⟨by decide, by decide⟩

end Traceroute
